import Mathlib

/-!
Verification of the `httpapi` package of the caspaxos repository: a shallow
embedding of the acceptor HTTP server and client (`http_acceptor.go`) and the
proposer HTTP server (`http_proposer.go`), with theorems about the claims on
ballot encoding, status mapping, CAS semantics and URL escaping.

Go strings and byte slices are byte sequences; both are modelled as `List Nat`
(each element a byte value).  A Go `[]byte` can additionally be `nil`, which is
observably different from the empty non-nil slice (`v == nil` comparisons), so
`[]byte` values are modelled as `Option (List Nat)` with `none` standing for
the nil slice.
-/

/-- A Go string / the contents of a byte slice: a sequence of bytes. -/
abbrev GoStr := List Nat

/-- Bytes of a Lean string literal (ASCII in all uses below), used to write
concrete Go strings readably. -/
def gostr (s : String) : GoStr := s.toList.map Char.toNat

/-- A Go `[]byte` value: `none` is the nil slice. -/
abbrev Bytes := Option GoStr

/-- `caspaxos.Ballot` from the core package: a `(Counter, ID)` pair of `uint64`.
The core package is outside the verified sources; the spec fixes the shape:
a pair of unsigned 64-bit integers.  Components are `Nat` here; the `< 2^64`
representation bound appears as a hypothesis where it matters. -/
structure Ballot where
  Counter : Nat
  ID : Nat
deriving DecidableEq

/-- `caspaxos.ChangeFunc`: `func([]byte) []byte`. -/
abbrev ChangeFunc := Bytes → Bytes

/-- `read` from `http_proposer.go`: returns its input unchanged. -/
def read (x : Bytes) : Bytes := x

/-- `bytes.Compare(a, b) == 0` from the Go standard library: byte-for-byte
equality of the contents, treating the nil slice and the empty slice alike. -/
def bytesEq (a b : Bytes) : Prop := a.getD [] = b.getD []

instance (a b : Bytes) : Decidable (bytesEq a b) := by
  unfold bytesEq; infer_instance

/-- `cas` from `http_proposer.go`: the returned change function yields `next`
when the input compares equal to `current` (via `bytes.Compare`), and the
input itself otherwise. -/
def cas (current next : Bytes) : ChangeFunc := fun x =>
  if bytesEq current x then next else x

/-- `prettyPrint` from `http_proposer.go`: prints the two-byte UTF-8 marker
(bytes 195, 152) for the nil slice and the raw bytes otherwise. -/
def prettyPrint (v : Bytes) : GoStr :=
  match v with
  | none => [195, 152]
  | some b => b

/-- Claim C3: for all byte strings `current`, `next` and `x`, the change
function `cas current next` maps `x` to `next` when `x` equals `current`
byte-for-byte and to `x` itself otherwise. -/
theorem cas_change_function_semantics (current next x : Bytes) :
    (bytesEq x current → cas current next x = next) ∧
    (¬ bytesEq x current → cas current next x = x) := by
  constructor
  · intro h
    simp only [cas, bytesEq] at *
    rw [if_pos h.symm]
  · intro h
    simp only [cas, bytesEq] at *
    rw [if_neg (fun hc => h hc.symm)]

/-- Witness for C3 at concrete inputs: `cas "a" "b"` maps `"a"` to `"b"` and
leaves `"c"` unchanged. -/
theorem cas_change_function_semantics_witness :
    cas (some (gostr "a")) (some (gostr "b")) (some (gostr "a")) = some (gostr "b") ∧
    cas (some (gostr "a")) (some (gostr "b")) (some (gostr "c")) = some (gostr "c") :=
  ⟨(cas_change_function_semantics (some (gostr "a")) (some (gostr "b"))
      (some (gostr "a"))).1 (by decide),
   (cas_change_function_semantics (some (gostr "a")) (some (gostr "b"))
      (some (gostr "c"))).2 (by decide)⟩

/-! ## Ballot wire encoding (`http_acceptor.go`, `header2ballot` / `ballot2header`) -/

/-- ASCII decimal digit test (bytes 48..57). -/
def isDigitB (c : Nat) : Bool := 48 ≤ c && c ≤ 57

/-- Value of a string of ASCII decimal digits, most significant first (the
accumulating loop of `strconv.ParseUint`). -/
def decValue (s : GoStr) : Nat := s.foldl (fun a c => a * 10 + (c - 48)) 0

/-- `strconv.ParseUint(s, 10, 64)` from the Go standard library: succeeds
exactly on a nonempty all-digit string whose value fits in 64 bits (no sign,
no underscores, base fixed at 10); on overflow or any other input it reports
an error, modelled as `none`. -/
def parseUint64 (s : GoStr) : Option Nat :=
  if s ≠ [] ∧ s.all isDigitB = true ∧ decValue s < 2 ^ 64 then some (decValue s)
  else none

/-- `strings.SplitN(s, "/", 2)` from the Go standard library: the part before
the first slash and everything after it, or the whole string when it has no
slash. -/
def splitN2 (s : GoStr) : List GoStr :=
  if s.contains 47 then [s.takeWhile (· != 47), (s.dropWhile (· != 47)).tail]
  else [s]

/-- Go `%q` of a string, simplified to plain double quoting.  `%q` additionally
escapes non-printable bytes; the quoting detail appears only inside error
message bodies, which no theorem below inspects. -/
def goQuote (s : GoStr) : GoStr := 34 :: s ++ [34]

/-- `header2ballot` from `http_acceptor.go`, applied to the value of the
`X-Caspaxos-Ballot` header (`Header.Get` yields the empty string when the
header is absent): split at the first slash into at most two tokens and parse
both as `uint64`, reporting an error for the empty string, a missing slash, or
an unparsable token. -/
def header2ballot (s : GoStr) : Except GoStr Ballot :=
  if s.isEmpty then .error (gostr "X-Caspaxos-Ballot not provided")
  else
    match splitN2 s with
    | [t1, t2] =>
      match parseUint64 t1 with
      | none => .error (gostr "X-Caspaxos-Ballot has invalid Counter value " ++ goQuote t1)
      | some c =>
        match parseUint64 t2 with
        | none => .error (gostr "X-Caspaxos-Ballot has invalid ID value " ++ goQuote t2)
        | some i => .ok ⟨c, i⟩
    | _ => .error (gostr "X-Caspaxos-Ballot has invalid format")

/-- Decimal digits of `n`, most significant first, with explicit fuel (the
recursion of Go's `%d` formatting; `natToDecCore n n` has ample fuel). -/
def natToDecCore : Nat → Nat → GoStr
  | 0, _ => []
  | fuel + 1, n => if n = 0 then [] else natToDecCore fuel (n / 10) ++ [48 + n % 10]

/-- `fmt.Sprintf("%d", n)` for an unsigned integer. -/
def natToDec (n : Nat) : GoStr := if n = 0 then [48] else natToDecCore n n

/-- `ballot2header` from `http_acceptor.go`: the header value
`Sprintf("%d/%d", b.Counter, b.ID)`. -/
def ballot2header (b : Ballot) : GoStr := natToDec b.Counter ++ 47 :: natToDec b.ID

/-- The spec's wire format, in the spec's words: exactly one slash, separating
two nonempty base-10 digit strings each of whose values fits in an unsigned
64-bit integer. -/
def wellFormedBallotStr (s : GoStr) : Bool :=
  s.count 47 == 1 &&
    !(s.takeWhile (· != 47)).isEmpty &&
    !((s.dropWhile (· != 47)).tail).isEmpty &&
    (s.takeWhile (· != 47)).all isDigitB &&
    ((s.dropWhile (· != 47)).tail).all isDigitB &&
    decide (decValue (s.takeWhile (· != 47)) < 2 ^ 64) &&
    decide (decValue ((s.dropWhile (· != 47)).tail) < 2 ^ 64)

instance {ε α : Type} [DecidableEq ε] [DecidableEq α] : DecidableEq (Except ε α)
  | .error a, .error b =>
    if h : a = b then .isTrue (h ▸ rfl) else .isFalse fun hh => h (by injection hh)
  | .error _, .ok _ => .isFalse fun hh => Except.noConfusion hh
  | .ok _, .error _ => .isFalse fun hh => Except.noConfusion hh
  | .ok a, .ok b =>
    if h : a = b then .isTrue (h ▸ rfl) else .isFalse fun hh => h (by injection hh)


/-! ## Round-trip lemmas for the ballot encoding -/

theorem decValue_append_digit (a : GoStr) (d : Nat) :
    decValue (a ++ [d]) = decValue a * 10 + (d - 48) := by
  simp [decValue, List.foldl_append]

theorem natToDecCore_decValue : ∀ f n : Nat, n ≤ f → decValue (natToDecCore f n) = n := by
  intro f
  induction f with
  | zero =>
    intro n hn
    have : n = 0 := Nat.le_zero.mp hn
    subst this
    simp [natToDecCore, decValue]
  | succ f ih =>
    intro n hn
    by_cases h0 : n = 0
    · subst h0; simp [natToDecCore, decValue]
    · have hdiv : n / 10 ≤ f := by
        have := Nat.div_lt_self (Nat.pos_of_ne_zero h0) (by norm_num : 1 < 10)
        omega
      rw [natToDecCore, if_neg h0, decValue_append_digit, ih (n / 10) hdiv]
      omega

theorem natToDecCore_digits : ∀ f n : Nat, ∀ c ∈ natToDecCore f n, isDigitB c = true := by
  intro f
  induction f with
  | zero => intro n c hc; simp [natToDecCore] at hc
  | succ f ih =>
    intro n c hc
    rw [natToDecCore] at hc
    by_cases h0 : n = 0
    · simp [h0] at hc
    · rw [if_neg h0] at hc
      rcases List.mem_append.mp hc with h | h
      · exact ih _ _ h
      · have : c = 48 + n % 10 := by simpa using h
        subst this
        simp only [isDigitB, Bool.and_eq_true, decide_eq_true_eq]
        omega

theorem natToDecCore_ne_nil (f n : Nat) (h0 : n ≠ 0) (hf : n ≤ f) :
    natToDecCore f n ≠ [] := by
  cases f with
  | zero => omega
  | succ f => rw [natToDecCore, if_neg h0]; simp

theorem natToDec_decValue (n : Nat) : decValue (natToDec n) = n := by
  by_cases h0 : n = 0
  · subst h0; simp [natToDec, decValue]
  · rw [natToDec, if_neg h0]; exact natToDecCore_decValue n n le_rfl

theorem natToDec_digits (n : Nat) : ∀ c ∈ natToDec n, isDigitB c = true := by
  by_cases h0 : n = 0
  · subst h0; intro c hc; simp [natToDec] at hc; subst hc; decide
  · rw [natToDec, if_neg h0]; exact natToDecCore_digits n n

theorem natToDec_ne_nil (n : Nat) : natToDec n ≠ [] := by
  by_cases h0 : n = 0
  · subst h0; simp [natToDec]
  · rw [natToDec, if_neg h0]; exact natToDecCore_ne_nil n n h0 le_rfl

theorem parseUint64_natToDec (n : Nat) (h : n < 2 ^ 64) :
    parseUint64 (natToDec n) = some n := by
  rw [parseUint64, if_pos, natToDec_decValue]
  refine ⟨natToDec_ne_nil n, ?_, ?_⟩
  · exact List.all_eq_true.mpr (natToDec_digits n)
  · rw [natToDec_decValue]; exact h

theorem digit_ne_slash {c : Nat} (h : isDigitB c = true) : c ≠ 47 := by
  simp only [isDigitB, Bool.and_eq_true, decide_eq_true_eq] at h
  omega

theorem takeWhile_append_slash (a b : GoStr) (ha : ∀ c ∈ a, c ≠ 47) :
    (a ++ 47 :: b).takeWhile (· != 47) = a ∧
      (a ++ 47 :: b).dropWhile (· != 47) = 47 :: b := by
  induction a with
  | nil => constructor <;> simp [List.takeWhile, List.dropWhile]
  | cons c t ih =>
    have hc : c ≠ 47 := ha c (List.mem_cons_self c t)
    have ht : ∀ x ∈ t, x ≠ 47 := fun x hx => ha x (List.mem_cons_of_mem c hx)
    obtain ⟨h1, h2⟩ := ih ht
    have hcb : (c != 47) = true := by simpa using hc
    constructor
    · simpa [List.takeWhile_cons, hcb] using h1
    · simpa [List.dropWhile_cons, hcb] using h2

theorem splitN2_append_slash (a b : GoStr) (ha : ∀ c ∈ a, c ≠ 47) :
    splitN2 (a ++ 47 :: b) = [a, b] := by
  obtain ⟨h1, h2⟩ := takeWhile_append_slash a b ha
  have hc : (a ++ 47 :: b).contains 47 = true := by simp
  rw [splitN2, if_pos hc, h1, h2, List.tail_cons]

theorem header2ballot_ballot2header (b : Ballot) (hc : b.Counter < 2 ^ 64)
    (hi : b.ID < 2 ^ 64) : header2ballot (ballot2header b) = .ok b := by
  have hsplit : splitN2 (ballot2header b) = [natToDec b.Counter, natToDec b.ID] :=
    splitN2_append_slash _ _ (fun c hcmem => digit_ne_slash (natToDec_digits _ c hcmem))
  have hne : (ballot2header b).isEmpty = false := by
    rw [ballot2header]
    cases h : natToDec b.Counter with
    | nil => exact absurd h (natToDec_ne_nil _)
    | cons x xs => simp [h]
  rw [header2ballot, hne]
  simp only [Bool.false_eq_true, if_false, hsplit]
  rw [parseUint64_natToDec _ hc, parseUint64_natToDec _ hi]

theorem parseUint64_some_inv {s : GoStr} {v : Nat} (h : parseUint64 s = some v) :
    s ≠ [] ∧ s.all isDigitB = true ∧ decValue s < 2 ^ 64 ∧ v = decValue s := by
  rw [parseUint64] at h
  split at h
  · rename_i hcond
    exact ⟨hcond.1, hcond.2.1, hcond.2.2, (Option.some_inj.mp h).symm⟩
  · exact absurd h (by simp)

theorem count_slash_zero_of_digits (t : GoStr) (h : t.all isDigitB = true) :
    t.count 47 = 0 :=
  List.count_eq_zero.mpr fun hm =>
    digit_ne_slash (List.all_eq_true.mp h _ hm) rfl

theorem slash_decomp (s : GoStr) (h : s.contains 47 = true) :
    s = s.takeWhile (· != 47) ++ 47 :: (s.dropWhile (· != 47)).tail := by
  induction s with
  | nil => simp at h
  | cons c t ih =>
    by_cases hc : c = 47
    · subst hc
      simp [List.takeWhile_cons, List.dropWhile_cons]
    · have hcb : (c != 47) = true := by simpa using hc
      have ht : t.contains 47 = true := by
        simp only [List.contains_cons] at h
        rcases Bool.or_eq_true_iff.mp h with h1 | h1
        · exact absurd (beq_iff_eq.mp h1).symm hc
        · exact h1
      simp only [List.takeWhile_cons, List.dropWhile_cons, hcb, if_true, List.cons_append]
      exact congrArg (c :: ·) (ih ht)

/-- Soundness of `header2ballot` against the spec's wire format: a successful
decode implies the header string was exactly two in-range base-10 integers
separated by exactly one slash. -/
theorem header2ballot_ok_wellFormed (s : GoStr) (b : Ballot)
    (h : header2ballot s = .ok b) : wellFormedBallotStr s = true := by
  rw [header2ballot] at h
  split at h
  · exact Except.noConfusion h
  · rename_i hne
    split at h
    case h_2 => exact Except.noConfusion h
    case h_1 t1 t2 heq =>
      split at h
      · exact Except.noConfusion h
      · rename_i c hp1
        split at h
        · exact Except.noConfusion h
        · rename_i i hp2
          rw [splitN2] at heq
          split at heq
          case isFalse => simp at heq
          case isTrue hcont =>
            obtain ⟨he1, he2⟩ : s.takeWhile (· != 47) = t1 ∧
                (s.dropWhile (· != 47)).tail = t2 := by
              constructor <;> simp_all
            obtain ⟨hne1, hdig1, hlt1, -⟩ := parseUint64_some_inv hp1
            obtain ⟨hne2, hdig2, hlt2, -⟩ := parseUint64_some_inv hp2
            have hdecomp := slash_decomp s hcont
            rw [he1, he2] at hdecomp
            have hcount : s.count 47 = 1 := by
              rw [hdecomp, List.count_append, List.count_cons,
                count_slash_zero_of_digits t1 hdig1,
                count_slash_zero_of_digits t2 hdig2]
              simp
            rw [wellFormedBallotStr, he1, he2]
            simp only [Bool.and_eq_true, beq_iff_eq, Bool.not_eq_true',
              decide_eq_true_eq]
            refine ⟨⟨⟨⟨⟨⟨hcount, ?_⟩, ?_⟩, hdig1⟩, hdig2⟩, hlt1⟩, hlt2⟩
            · exact List.isEmpty_eq_false_iff_exists_mem.mpr
                (match t1, hne1 with
                 | x :: xs, _ => ⟨x, List.mem_cons_self x xs⟩)
            · exact List.isEmpty_eq_false_iff_exists_mem.mpr
                (match t2, hne2 with
                 | x :: xs, _ => ⟨x, List.mem_cons_self x xs⟩)

/-! ## HTTP responses and the acceptor server (`http_acceptor.go`) -/

/-- An HTTP response as the handlers build it: status code, body bytes, the
optional `X-Caspaxos-Ballot` response header, and the `Content-Type` header. -/
structure Response where
  status : Nat
  body : GoStr
  ballotHeader : Option GoStr
  contentType : Option GoStr
deriving DecidableEq

/-- Content type set by `http.Error`. -/
def ctTextPlainUtf8 : GoStr := gostr "text/plain; charset=utf-8"

/-- Content type set explicitly by the handlers on success. -/
def ctTextPlain : GoStr := gostr "text/plain"

/-- `http.Error(w, msg, code)` from the Go standard library: plain-text
response with the message followed by a newline. -/
def httpError (code : Nat) (msg : GoStr) : Response :=
  Response.mk code (msg ++ [10]) none (some ctTextPlainUtf8)

/-- Error message of `http_acceptor.go` for an empty key. -/
def msgNoKey : GoStr := gostr "no key specified"

/-- The result of `caspaxos.Acceptor.Prepare` (value, current ballot, error);
the acceptor itself is outside the verified sources and enters the handler as
an oracle from the request ballot to this result. -/
structure PrepareResult where
  value : Bytes
  current : Ballot
  err : Option GoStr

/-- `AcceptorServer.handlePrepare` from `http_acceptor.go`: reject an empty
key or a bad ballot header with 400; otherwise call `Prepare`, set the
response ballot header to `current` (before the error check, so also on
conflict), answer 412 with the error text on error and 200 with the value
bytes on success. -/
def handlePrepare (key hdr : GoStr) (acceptor : Ballot → PrepareResult) : Response :=
  if key.isEmpty then httpError 400 msgNoKey
  else
    match header2ballot hdr with
    | .error e => httpError 400 e
    | .ok b =>
      let r := acceptor b
      match r.err with
      | some e => Response.mk 412 (e ++ [10]) (some (ballot2header r.current)) (some ctTextPlainUtf8)
      | none => Response.mk 200 (r.value.getD []) (some (ballot2header r.current)) (some ctTextPlain)

/-- The argument triple of a `caspaxos.Acceptor.Accept` call made by the
accept handler. -/
structure AcceptCall where
  key : GoStr
  ballot : Ballot
  value : Bytes
deriving DecidableEq

/-- `AcceptorServer.handleAccept` from `http_acceptor.go`: reject an empty key
or a bad ballot header with 400; convert an empty `value` path variable (also
produced by the value-less route `/accept/:key`) to the nil slice; call
`Accept`, answering 406 with the error text on error and 200 with body
`OK` plus newline (`fmt.Fprintln`) on success.  The second component records
the `Accept` call made, `none` when the acceptor was never reached. -/
def handleAccept (key value hdr : GoStr)
    (acceptor : Ballot → Bytes → Option GoStr) : Response × Option AcceptCall :=
  if key.isEmpty then (httpError 400 msgNoKey, none)
  else
    let valueBytes : Bytes := if value.isEmpty then none else some value
    match header2ballot hdr with
    | .error e => (httpError 400 e, none)
    | .ok b =>
      match acceptor b valueBytes with
      | some e => (httpError 406 e, some (AcceptCall.mk key b valueBytes))
      | none =>
        (Response.mk 200 (gostr "OK" ++ [10]) none (some ctTextPlain),
         some (AcceptCall.mk key b valueBytes))

/-! ## The acceptor HTTP client (`http_acceptor.go`, `AcceptorClient.Prepare`) -/

/-- ASCII whitespace as trimmed by `strings.TrimSpace` (the Unicode cases do
not arise for the byte values the handlers emit). -/
def isSpaceB (c : Nat) : Bool :=
  c == 32 || c == 9 || c == 10 || c == 11 || c == 12 || c == 13

/-- `strings.TrimSpace` from the Go standard library. -/
def trimSpace (s : GoStr) : GoStr :=
  ((s.dropWhile isSpaceB).reverse.dropWhile isSpaceB).reverse

/-- `net/http` status text for the codes this API uses (`Response.Status` is
the code followed by this text). -/
def statusText (code : Nat) : GoStr :=
  if code = 200 then gostr "OK"
  else if code = 400 then gostr "Bad Request"
  else if code = 404 then gostr "Not Found"
  else if code = 406 then gostr "Not Acceptable"
  else if code = 412 then gostr "Precondition Failed"
  else if code = 500 then gostr "Internal Server Error"
  else if code = 501 then gostr "Not Implemented"
  else []

/-- Go `Response.Status`: `"<code> <text>"`. -/
def goStatusLine (code : Nat) : GoStr := natToDec code ++ 32 :: statusText code

/-- The response-processing tail of `AcceptorClient.Prepare` from
`http_acceptor.go`, as a function of the received response: parse the
response ballot header (`Header.Get` yields the empty string when absent),
failing with a wrapped error and the zero ballot when it does not parse; then
fail with the status line and trimmed body — but the parsed `current`
ballot — on any non-200 status; on 200 return the body bytes as the value
(`ioutil.ReadAll` yields a non-nil slice). -/
def clientPrepareFromResponse (status : Nat) (ballotHeader : Option GoStr)
    (body : GoStr) : Bytes × Ballot × Option GoStr :=
  match header2ballot (ballotHeader.getD []) with
  | .error e => (none, Ballot.mk 0 0, some (gostr "extracting response ballot: " ++ e))
  | .ok current =>
    if status = 200 then (some body, current, none)
    else (none, current,
      some (goStatusLine status ++ gostr " (" ++ trimSpace body ++ gostr ")"))

/-! ## The proposer server (`http_proposer.go`) -/

/-- Result of a proposer handler: the HTTP response and the list of
`Propose` invocations it made — each recorded by the change function passed
(all calls are for the handler's own key). -/
structure HandlerOut where
  resp : Response
  calls : List ChangeFunc

/-- `ProposerServer.handleGet` from `http_proposer.go`: reject an empty key
with 400; call `Propose(key, read)`; 500 with the error text on error; 404
when the returned slice is nil; otherwise 200 with the value followed by a
newline (`Fprintf "%s\n"` of `prettyPrint`, which is the identity on a
non-nil slice).  `propose` is the proposer oracle for this key. -/
def handleGet (key : GoStr) (propose : ChangeFunc → Bytes × Option GoStr) :
    HandlerOut :=
  if key.isEmpty then HandlerOut.mk (httpError 400 msgNoKey) []
  else
    match propose read with
    | (_, some e) => HandlerOut.mk (httpError 500 e) [read]
    | (none, none) =>
      HandlerOut.mk (httpError 404 (gostr "key " ++ key ++ gostr " doesn't exist")) [read]
    | (some v, none) =>
      HandlerOut.mk
        (Response.mk 200 (prettyPrint (some v) ++ [10]) none (some ctTextPlain)) [read]

/-- Body of the 412 message of `handlePost`
(`Sprintf "CAS(%s, %s, %s) failed: returned value %s"`). -/
def casFailMsg (key : GoStr) (current : Bytes) (next : GoStr) (ret : Bytes) : GoStr :=
  gostr "CAS(" ++ key ++ gostr ", " ++ prettyPrint current ++ gostr ", " ++
    prettyPrint (some next) ++ gostr ") failed: returned value " ++ prettyPrint ret

/-- Body of the 200 response of `handlePost`
(`Fprintf "CAS(%s, %s, %s) success: new value %s\n"`). -/
def casSuccessMsg (key : GoStr) (current : Bytes) (next : GoStr) (ret : Bytes) : GoStr :=
  gostr "CAS(" ++ key ++ gostr ", " ++ prettyPrint current ++ gostr ", " ++
    prettyPrint (some next) ++ gostr ") success: new value " ++ prettyPrint ret ++ [10]

/-- `ProposerServer.handlePost` from `http_proposer.go`: reject an empty key
with 400; take `current` from the query (`Query().Get` yields the empty
string when absent), mapping the empty string to the nil slice; require a
nonempty `next` (400 otherwise); call `Propose(key, cas(current, next))`;
500 with the error text on error; compare the returned value to `next` with
`bytes.Compare`: 412 with a failure message when different, 200 with a
success message when equal. -/
def handlePost (key currentQ nextQ : GoStr)
    (propose : ChangeFunc → Bytes × Option GoStr) : HandlerOut :=
  if key.isEmpty then HandlerOut.mk (httpError 400 msgNoKey) []
  else
    let current : Bytes := if currentQ.isEmpty then none else some currentQ
    if nextQ.isEmpty then
      HandlerOut.mk (httpError 400 (gostr "no next value specified")) []
    else
      let change := cas current (some nextQ)
      match propose change with
      | (_, some e) => HandlerOut.mk (httpError 500 e) [change]
      | (returnedValue, none) =>
        if bytesEq returnedValue (some nextQ) then
          HandlerOut.mk
            (Response.mk 200 (casSuccessMsg key current nextQ returnedValue) none
              (some ctTextPlain)) [change]
        else
          HandlerOut.mk
            (httpError 412 (casFailMsg key current nextQ returnedValue)) [change]

/-- `ProposerServer.handleDelete` from `http_proposer.go`: unconditionally
`http.Error(w, "not implemented", 501)`; the request key and the proposer are
never consulted. -/
def handleDelete (_key : GoStr) (_propose : ChangeFunc → Bytes × Option GoStr) :
    HandlerOut :=
  HandlerOut.mk (httpError 501 (gostr "not implemented")) []

/-! ## URL path escaping (`net/url` as used by the acceptor client)

`AcceptorClient.Prepare` builds `u.Path = Sprintf("/prepare/%s",
url.PathEscape(key))` and sends `u.String()`.  Because `u.RawPath` is empty,
`URL.String` re-escapes `u.Path` with the path encoding, and the server's
`url.Parse` unescapes the wire path once before `mux` extracts the `{key}`
variable from the decoded path. -/

/-- Unreserved alphanumeric bytes (RFC 3986 section 2.3). -/
def isAlnumB (c : Nat) : Bool :=
  (97 ≤ c && c ≤ 122) || (65 ≤ c && c ≤ 90) || (48 ≤ c && c ≤ 57)

/-- Unreserved marks `- _ . ~`. -/
def isMarkB (c : Nat) : Bool := c == 45 || c == 95 || c == 46 || c == 126

/-- The reserved bytes `$ & + , / : ; = ? @` special-cased by
`url.shouldEscape`. -/
def isReservedB (c : Nat) : Bool :=
  c == 36 || c == 38 || c == 43 || c == 44 || c == 47 || c == 58 || c == 59 ||
    c == 61 || c == 63 || c == 64

/-- `url.shouldEscape(c, encodePathSegment)` (the mode of `url.PathEscape`):
keep unreserved bytes and `$ & + : = @`; escape `/ ; , ?` and everything
else. -/
def shouldEscapePathSegment (c : Nat) : Bool :=
  if isAlnumB c || isMarkB c then false
  else if isReservedB c then c == 47 || c == 59 || c == 44 || c == 63
  else true

/-- `url.shouldEscape(c, encodePath)` (the mode `URL.String` uses on `Path`):
keep unreserved bytes and `$ & + , / : ; = @`; escape `?` and everything
else — in particular `%` is escaped. -/
def shouldEscapePath (c : Nat) : Bool :=
  if isAlnumB c || isMarkB c then false
  else if isReservedB c then c == 63
  else true

/-- Upper-case hex digit of a value below 16 (`url.escape` uses
`"0123456789ABCDEF"`). -/
def hexUpperDigit (n : Nat) : Nat := if n < 10 then 48 + n else 55 + n

/-- `%XX` encoding of one byte. -/
def escByte (c : Nat) : GoStr := [37, hexUpperDigit (c / 16), hexUpperDigit (c % 16)]

/-- `url.escape`: replace every byte the mode escapes by its `%XX` form. -/
def escapeWith (p : Nat → Bool) (s : GoStr) : GoStr :=
  s.foldr (fun c acc => (if p c then escByte c else [c]) ++ acc) []

/-- `url.PathEscape`. -/
def pathEscape (s : GoStr) : GoStr := escapeWith shouldEscapePathSegment s

/-- The escaping `URL.String` applies to `u.Path` when `u.RawPath` is empty. -/
def escapePath (s : GoStr) : GoStr := escapeWith shouldEscapePath s

/-- Value of one hex digit byte (`url.unhex`, both cases accepted). -/
def fromHexDigit (c : Nat) : Option Nat :=
  if 48 ≤ c && c ≤ 57 then some (c - 48)
  else if 65 ≤ c && c ≤ 70 then some (c - 55)
  else if 97 ≤ c && c ≤ 102 then some (c - 87)
  else none

/-- `url.unescape` in path mode, as applied by the server's `url.Parse`:
percent-decode, failing on a malformed `%` sequence. -/
def unescape : GoStr → Option GoStr
  | [] => some []
  | c :: t =>
    if c = 37 then
      match t with
      | h :: l :: t2 =>
        match fromHexDigit h, fromHexDigit l with
        | some a, some b => (unescape t2).map fun r => (16 * a + b) :: r
        | _, _ => none
      | _ => none
    else (unescape t).map fun r => c :: r

/-- The wire path of `AcceptorClient.Prepare` for a key: the path-segment
escape of the key is assigned to `u.Path` behind `/prepare/`, and
`URL.String` escapes the whole path once more. -/
def prepareWirePath (key : GoStr) : GoStr :=
  escapePath (gostr "/prepare/" ++ pathEscape key)

/-- The key the server recovers: `url.Parse` decodes the wire path once and
`mux` takes the segment after `/prepare/` (9 bytes; the decoded remainder
contains no slash for the inputs considered, so the segment is the rest). -/
def recoveredPrepareKey (key : GoStr) : Option GoStr :=
  (unescape (prepareWirePath key)).map (List.drop 9)

/-! ## Claim theorems -/

/-- Claim C1: when a Prepare request is rejected with a protocol conflict the
response still carries the acceptor's current ballot: the server sets the
`X-Caspaxos-Ballot` response header to `current` before writing the 412
error, the client parses that header and returns the `current` ballot
alongside the error for every non-200 response, and composing the two, a
conflict reply delivers exactly the acceptor's `current` ballot to the
caller together with an error. -/
theorem prepare_conflict_returns_current_ballot :
    (∀ (key hdr : GoStr) (acceptor : Ballot → PrepareResult) (b : Ballot) (e : GoStr),
      key.isEmpty = false → header2ballot hdr = .ok b → (acceptor b).err = some e →
      (handlePrepare key hdr acceptor).status = 412 ∧
      (handlePrepare key hdr acceptor).ballotHeader =
        some (ballot2header (acceptor b).current)) ∧
    (∀ (status : Nat) (hdr body : GoStr) (current : Ballot),
      status ≠ 200 → header2ballot hdr = .ok current →
      ∃ msg, clientPrepareFromResponse status (some hdr) body =
        (none, current, some msg)) ∧
    (∀ (key hdr : GoStr) (acceptor : Ballot → PrepareResult) (b : Ballot) (e : GoStr),
      key.isEmpty = false → header2ballot hdr = .ok b → (acceptor b).err = some e →
      (acceptor b).current.Counter < 2 ^ 64 → (acceptor b).current.ID < 2 ^ 64 →
      ∃ msg,
        clientPrepareFromResponse (handlePrepare key hdr acceptor).status
            (handlePrepare key hdr acceptor).ballotHeader
            (handlePrepare key hdr acceptor).body =
          (none, (acceptor b).current, some msg)) := by
  have hserver : ∀ (key hdr : GoStr) (acceptor : Ballot → PrepareResult) (b : Ballot)
      (e : GoStr), key.isEmpty = false → header2ballot hdr = .ok b →
      (acceptor b).err = some e →
      handlePrepare key hdr acceptor =
        Response.mk 412 (e ++ [10]) (some (ballot2header (acceptor b).current))
          (some ctTextPlainUtf8) := by
    intro key hdr acceptor b e hk hb he
    simp only [handlePrepare, hk, Bool.false_eq_true, if_false, hb, he]
  have hclient : ∀ (status : Nat) (hdr body : GoStr) (current : Ballot),
      status ≠ 200 → header2ballot hdr = .ok current →
      clientPrepareFromResponse status (some hdr) body =
        (none, current,
          some (goStatusLine status ++ gostr " (" ++ trimSpace body ++ gostr ")")) := by
    intro status hdr body current hs hb
    simp only [clientPrepareFromResponse, Option.getD_some, hb, if_neg hs]
  refine ⟨?_, ?_, ?_⟩
  · intro key hdr acceptor b e hk hb he
    rw [hserver key hdr acceptor b e hk hb he]
    exact ⟨rfl, rfl⟩
  · intro status hdr body current hs hb
    exact ⟨_, hclient status hdr body current hs hb⟩
  · intro key hdr acceptor b e hk hb he hc hi
    rw [hserver key hdr acceptor b e hk hb he]
    exact ⟨_, hclient 412 (ballot2header (acceptor b).current) (e ++ [10])
      (acceptor b).current (by norm_num)
      (header2ballot_ballot2header (acceptor b).current hc hi)⟩

/-- Witness for C1 at a concrete conflict: key `k`, request ballot `1/2`, an
acceptor reporting a conflict with current ballot `7/9`; the 412 response
carries header `7/9` and the client hands back ballot `7/9` with an error. -/
theorem prepare_conflict_returns_current_ballot_witness :
    (handlePrepare (gostr "k") (gostr "1/2")
      (fun _ => PrepareResult.mk none (Ballot.mk 7 9) (some (gostr "conflict")))).status
        = 412 ∧
    (handlePrepare (gostr "k") (gostr "1/2")
      (fun _ => PrepareResult.mk none (Ballot.mk 7 9) (some (gostr "conflict")))).ballotHeader
        = some (gostr "7/9") ∧
    (∃ msg,
      clientPrepareFromResponse
        (handlePrepare (gostr "k") (gostr "1/2")
          (fun _ => PrepareResult.mk none (Ballot.mk 7 9) (some (gostr "conflict")))).status
        (handlePrepare (gostr "k") (gostr "1/2")
          (fun _ => PrepareResult.mk none (Ballot.mk 7 9) (some (gostr "conflict")))).ballotHeader
        (handlePrepare (gostr "k") (gostr "1/2")
          (fun _ => PrepareResult.mk none (Ballot.mk 7 9) (some (gostr "conflict")))).body =
        (none, Ballot.mk 7 9, some msg)) := by
  have h1 := prepare_conflict_returns_current_ballot.1 (gostr "k") (gostr "1/2")
    (fun _ => PrepareResult.mk none (Ballot.mk 7 9) (some (gostr "conflict")))
    (Ballot.mk 1 2) (gostr "conflict") (by decide) (by decide) rfl
  have h3 := prepare_conflict_returns_current_ballot.2.2 (gostr "k") (gostr "1/2")
    (fun _ => PrepareResult.mk none (Ballot.mk 7 9) (some (gostr "conflict")))
    (Ballot.mk 1 2) (gostr "conflict") (by decide) (by decide) rfl
    (by decide) (by decide)
  refine ⟨h1.1, ?_, h3⟩
  rw [h1.2]
  decide

/-- Claim C2: decoding inverts encoding (`header2ballot` after
`ballot2header` is the identity on in-range ballots); every header string
that is not exactly two base-10 unsigned 64-bit integers separated by exactly
one slash — including the absent (empty) header — decodes to an error; and
the handlers surface such an error as 400 Bad Request. -/
theorem ballot_encoding_roundtrip_and_reject :
    (∀ b : Ballot, b.Counter < 2 ^ 64 → b.ID < 2 ^ 64 →
      header2ballot (ballot2header b) = .ok b) ∧
    (∀ s : GoStr, wellFormedBallotStr s = false →
      ∃ e, header2ballot s = .error e) ∧
    (∀ (key hdr : GoStr) (acceptor : Ballot → PrepareResult) (e : GoStr),
      key.isEmpty = false → header2ballot hdr = .error e →
      handlePrepare key hdr acceptor = httpError 400 e) ∧
    (∀ (key value hdr : GoStr) (acceptor : Ballot → Bytes → Option GoStr) (e : GoStr),
      key.isEmpty = false → header2ballot hdr = .error e →
      (handleAccept key value hdr acceptor).1 = httpError 400 e) := by
  refine ⟨header2ballot_ballot2header, ?_, ?_, ?_⟩
  · intro s hs
    cases hh : header2ballot s with
    | error e => exact ⟨e, rfl⟩
    | ok b =>
      rw [header2ballot_ok_wellFormed s b hh] at hs
      exact absurd hs (by simp)
  · intro key hdr acceptor e hk hb
    simp only [handlePrepare, hk, Bool.false_eq_true, if_false, hb]
  · intro key value hdr acceptor e hk hb
    simp only [handleAccept, hk, Bool.false_eq_true, if_false, hb]

/-- Witness for C2 at concrete inputs: ballot `12/34` round-trips; the
malformed strings `bogus`, `12/34/56` and the absent (empty) header are
rejected; and a prepare request with header `bogus` answers 400. -/
theorem ballot_encoding_roundtrip_and_reject_witness :
    header2ballot (ballot2header (Ballot.mk 12 34)) = .ok (Ballot.mk 12 34) ∧
    (∃ e, header2ballot (gostr "bogus") = .error e) ∧
    (∃ e, header2ballot (gostr "12/34/56") = .error e) ∧
    (∃ e, header2ballot [] = .error e) ∧
    (handlePrepare (gostr "k") (gostr "bogus")
      (fun _ => PrepareResult.mk none (Ballot.mk 0 0) none)).status = 400 := by
  refine ⟨ballot_encoding_roundtrip_and_reject.1 (Ballot.mk 12 34) (by decide) (by decide),
    ballot_encoding_roundtrip_and_reject.2.1 (gostr "bogus") (by decide),
    ballot_encoding_roundtrip_and_reject.2.1 (gostr "12/34/56") (by decide),
    ballot_encoding_roundtrip_and_reject.2.1 [] (by decide), ?_⟩
  rw [ballot_encoding_roundtrip_and_reject.2.2.1 (gostr "k") (gostr "bogus")
    (fun _ => PrepareResult.mk none (Ballot.mk 0 0) none)
    (gostr "X-Caspaxos-Ballot has invalid format") (by decide) (by decide)]
  decide

/-- Counterexample to claim C4 as stated: when `Propose` returns the empty
(but non-nil) value the handler answers 200, not 404 — the nil check
`returnedValue == nil` does not fire on an empty slice — and the 200 body is
not the returned value itself but the value followed by a newline. -/
theorem get_handler_counterexample :
    (handleGet (gostr "k")
      (fun _ => ((some ([] : GoStr) : Bytes), (none : Option GoStr)))).resp.status
        = 200 ∧
    (handleGet (gostr "k")
      (fun _ => ((some (gostr "v") : Bytes), (none : Option GoStr)))).resp.body
        ≠ gostr "v" := by
  decide

/-- Claim C4 amended: `GET /{key}` is implemented as `Propose(key, read)` with
`read` the identity; the handler returns 404 exactly when `Propose` returns
the nil slice (an empty non-nil value yields 200), otherwise 200 with the
value followed by one newline as the body, and 500 when `Propose` errors. -/
theorem get_handler_amended :
    ∀ (key : GoStr) (propose : ChangeFunc → Bytes × Option GoStr),
      key.isEmpty = false →
      (∀ x : Bytes, read x = x) ∧
      (handleGet key propose).calls = [read] ∧
      (∀ v e, propose read = (v, some e) →
        (handleGet key propose).resp.status = 500) ∧
      (propose read = (none, none) →
        (handleGet key propose).resp.status = 404) ∧
      (∀ v, propose read = (some v, none) →
        (handleGet key propose).resp.status = 200 ∧
        (handleGet key propose).resp.body = v ++ [10]) := by
  intro key propose hk
  refine ⟨fun _ => rfl, ?_, ?_, ?_, ?_⟩
  · rcases hp : propose read with ⟨v, e⟩
    simp only [handleGet, hk, Bool.false_eq_true, if_false, hp]
    cases e <;> cases v <;> rfl
  · intro v e hp
    simp only [handleGet, hk, Bool.false_eq_true, if_false, hp]
    rfl
  · intro hp
    simp only [handleGet, hk, Bool.false_eq_true, if_false, hp]
    rfl
  · intro v hp
    simp only [handleGet, hk, Bool.false_eq_true, if_false, hp]
    constructor <;> trivial

/-- Witness for the amended C4: a proposer holding `w` under key `k` yields a
200 whose body is `w` plus newline, and the handler made exactly the
`Propose(key, read)` call. -/
theorem get_handler_amended_witness :
    (handleGet (gostr "k")
      (fun f => (f (some (gostr "w")), (none : Option GoStr)))).resp.status = 200 ∧
    (handleGet (gostr "k")
      (fun f => (f (some (gostr "w")), (none : Option GoStr)))).resp.body
        = gostr "w" ++ [10] ∧
    (handleGet (gostr "k")
      (fun f => (f (some (gostr "w")), (none : Option GoStr)))).calls = [read] := by
  have h := get_handler_amended (gostr "k")
    (fun f => (f (some (gostr "w")), (none : Option GoStr))) (by decide)
  have h200 := h.2.2.2.2 (gostr "w") rfl
  exact ⟨h200.1, h200.2, h.2.1⟩

/-- Counterexample to claim C5 as stated: the success body of the accept
handler is `OK` followed by a newline (`fmt.Fprintln`), not the exact string
`OK`. -/
theorem accept_ok_body_counterexample :
    (handleAccept (gostr "k") (gostr "v") (gostr "1/2")
      (fun _ _ => (none : Option GoStr))).1.status = 200 ∧
    (handleAccept (gostr "k") (gostr "v") (gostr "1/2")
      (fun _ _ => (none : Option GoStr))).1.body = gostr "OK" ++ [10] ∧
    (handleAccept (gostr "k") (gostr "v") (gostr "1/2")
      (fun _ _ => (none : Option GoStr))).1.body ≠ gostr "OK" := by
  decide

/-- Claim C5 amended: `handlePrepare` answers 200 with the accepted value as
body on success, 412 when `Prepare` reports a conflict, and 400 on a missing
or malformed ballot header or empty key; `handleAccept` answers 200 with body
`OK` followed by a newline on success, 406 when `Accept` reports a conflict,
and 400 on a missing or malformed ballot header or empty key. -/
theorem acceptor_status_mapping_amended :
    (∀ (key hdr : GoStr) (acceptor : Ballot → PrepareResult) (b : Ballot),
      key.isEmpty = false → header2ballot hdr = .ok b →
      ((acceptor b).err = none →
        (handlePrepare key hdr acceptor).status = 200 ∧
        (handlePrepare key hdr acceptor).body = (acceptor b).value.getD []) ∧
      (∀ e, (acceptor b).err = some e →
        (handlePrepare key hdr acceptor).status = 412)) ∧
    (∀ (key hdr : GoStr) (acceptor : Ballot → PrepareResult) (e : GoStr),
      key.isEmpty = false → header2ballot hdr = .error e →
      (handlePrepare key hdr acceptor).status = 400) ∧
    (∀ (hdr : GoStr) (acceptor : Ballot → PrepareResult),
      (handlePrepare [] hdr acceptor).status = 400) ∧
    (∀ (key value hdr : GoStr) (acceptor : Ballot → Bytes → Option GoStr) (b : Ballot),
      key.isEmpty = false → header2ballot hdr = .ok b →
      (acceptor b (if value.isEmpty then none else some value) = none →
        (handleAccept key value hdr acceptor).1.status = 200 ∧
        (handleAccept key value hdr acceptor).1.body = gostr "OK" ++ [10]) ∧
      (∀ e, acceptor b (if value.isEmpty then none else some value) = some e →
        (handleAccept key value hdr acceptor).1.status = 406)) ∧
    (∀ (key value hdr : GoStr) (acceptor : Ballot → Bytes → Option GoStr) (e : GoStr),
      key.isEmpty = false → header2ballot hdr = .error e →
      (handleAccept key value hdr acceptor).1.status = 400) ∧
    (∀ (value hdr : GoStr) (acceptor : Ballot → Bytes → Option GoStr),
      (handleAccept [] value hdr acceptor).1.status = 400) := by
  refine ⟨?_, ?_, ?_, ?_, ?_, ?_⟩
  · intro key hdr acceptor b hk hb
    constructor
    · intro he
      simp only [handlePrepare, hk, Bool.false_eq_true, if_false, hb, he]
      constructor <;> trivial
    · intro e he
      simp only [handlePrepare, hk, Bool.false_eq_true, if_false, hb, he]
  · intro key hdr acceptor e hk hb
    simp only [handlePrepare, hk, Bool.false_eq_true, if_false, hb]
    rfl
  · intro hdr acceptor
    rfl
  · intro key value hdr acceptor b hk hb
    constructor
    · intro he
      simp only [handleAccept, hk, Bool.false_eq_true, if_false, hb, he]
      constructor <;> trivial
    · intro e he
      simp only [handleAccept, hk, Bool.false_eq_true, if_false, hb, he]
      rfl
  · intro key value hdr acceptor e hk hb
    simp only [handleAccept, hk, Bool.false_eq_true, if_false, hb]
    rfl
  · intro value hdr acceptor
    rfl

/-- Witness for the amended C5 at concrete inputs: a successful prepare
returns 200 with the stored value as body; a successful accept returns 200
with body `OK` plus newline; conflicts give 412 and 406; a malformed header
gives 400 on both endpoints; an empty key gives 400. -/
theorem acceptor_status_mapping_amended_witness :
    (handlePrepare (gostr "k") (gostr "3/4")
      (fun _ => PrepareResult.mk (some (gostr "val")) (Ballot.mk 3 4) none)).status
        = 200 ∧
    (handlePrepare (gostr "k") (gostr "3/4")
      (fun _ => PrepareResult.mk (some (gostr "val")) (Ballot.mk 3 4) none)).body
        = gostr "val" ∧
    (handlePrepare (gostr "k") (gostr "3/4")
      (fun _ => PrepareResult.mk none (Ballot.mk 9 9) (some (gostr "c")))).status
        = 412 ∧
    (handlePrepare (gostr "k") (gostr "zz")
      (fun _ => PrepareResult.mk none (Ballot.mk 0 0) none)).status = 400 ∧
    (handleAccept (gostr "k") (gostr "v") (gostr "3/4")
      (fun _ _ => (none : Option GoStr))).1.status = 200 ∧
    (handleAccept (gostr "k") (gostr "v") (gostr "3/4")
      (fun _ _ => (none : Option GoStr))).1.body = gostr "OK" ++ [10] ∧
    (handleAccept (gostr "k") (gostr "v") (gostr "3/4")
      (fun _ _ => some (gostr "c"))).1.status = 406 ∧
    (handleAccept (gostr "k") (gostr "v") (gostr "zz")
      (fun _ _ => (none : Option GoStr))).1.status = 400 ∧
    (handleAccept [] (gostr "v") (gostr "3/4")
      (fun _ _ => (none : Option GoStr))).1.status = 400 := by
  have h1 := (acceptor_status_mapping_amended.1 (gostr "k") (gostr "3/4")
    (fun _ => PrepareResult.mk (some (gostr "val")) (Ballot.mk 3 4) none)
    (Ballot.mk 3 4) (by decide) (by decide)).1 rfl
  have h2 := (acceptor_status_mapping_amended.1 (gostr "k") (gostr "3/4")
    (fun _ => PrepareResult.mk none (Ballot.mk 9 9) (some (gostr "c")))
    (Ballot.mk 3 4) (by decide) (by decide)).2 (gostr "c") rfl
  have h3 := acceptor_status_mapping_amended.2.1 (gostr "k") (gostr "zz")
    (fun _ => PrepareResult.mk none (Ballot.mk 0 0) none)
    (gostr "X-Caspaxos-Ballot has invalid format") (by decide) (by decide)
  have h4 := (acceptor_status_mapping_amended.2.2.2.1 (gostr "k") (gostr "v")
    (gostr "3/4") (fun _ _ => (none : Option GoStr)) (Ballot.mk 3 4)
    (by decide) (by decide)).1 rfl
  have h5 := (acceptor_status_mapping_amended.2.2.2.1 (gostr "k") (gostr "v")
    (gostr "3/4") (fun _ _ => some (gostr "c")) (Ballot.mk 3 4)
    (by decide) (by decide)).2 (gostr "c") rfl
  have h6 := acceptor_status_mapping_amended.2.2.2.2.1 (gostr "k") (gostr "v")
    (gostr "zz") (fun _ _ => (none : Option GoStr))
    (gostr "X-Caspaxos-Ballot has invalid format") (by decide) (by decide)
  have h7 := acceptor_status_mapping_amended.2.2.2.2.2 (gostr "v") (gostr "3/4")
    (fun _ _ => (none : Option GoStr))
  exact ⟨h1.1, h1.2, h2, h3, h4.1, h4.2, h5, h6, h7⟩

/-- Claim C6: `POST /{key}?current=...&next=...` requires `next` (absent
`next` yields 400), defaults an absent `current` to the empty (nil) value,
calls `Propose(key, cas(current, next))`, returns 500 when `Propose` errors,
412 when the returned value differs byte-for-byte from `next`, and 200
exactly when the returned value equals `next`. -/
theorem post_cas_status_mapping :
    ∀ (key currentQ nextQ : GoStr) (propose : ChangeFunc → Bytes × Option GoStr),
      key.isEmpty = false →
      (nextQ.isEmpty = true →
        (handlePost key currentQ nextQ propose).resp.status = 400) ∧
      (nextQ.isEmpty = false →
        (handlePost key currentQ nextQ propose).calls =
          [cas (if currentQ.isEmpty then none else some currentQ) (some nextQ)] ∧
        (∀ v e,
          propose (cas (if currentQ.isEmpty then none else some currentQ) (some nextQ))
              = (v, some e) →
          (handlePost key currentQ nextQ propose).resp.status = 500) ∧
        (∀ v,
          propose (cas (if currentQ.isEmpty then none else some currentQ) (some nextQ))
              = (v, none) →
          (bytesEq v (some nextQ) →
            (handlePost key currentQ nextQ propose).resp.status = 200) ∧
          (¬ bytesEq v (some nextQ) →
            (handlePost key currentQ nextQ propose).resp.status = 412))) := by
  intro key currentQ nextQ propose hk
  constructor
  · intro hn
    simp only [handlePost, hk, Bool.false_eq_true, if_false, hn, if_true]
    rfl
  · intro hn
    refine ⟨?_, ?_, ?_⟩
    · rcases hp : propose
          (cas (if currentQ.isEmpty then none else some currentQ) (some nextQ))
        with ⟨v, e⟩
      simp only [handlePost, hk, hn, Bool.false_eq_true, if_false, hp]
      cases e
      · dsimp only
        by_cases hv : bytesEq v (some nextQ)
        · rw [if_pos hv]
        · rw [if_neg hv]
      · rfl
    · intro v e hp
      simp only [handlePost, hk, hn, Bool.false_eq_true, if_false, hp]
      rfl
    · intro v hp
      constructor
      · intro hv
        simp only [handlePost, hk, hn, Bool.false_eq_true, if_false, hp]
        rw [if_pos hv]
      · intro hv
        simp only [handlePost, hk, hn, Bool.false_eq_true, if_false, hp]
        rw [if_neg hv]
        rfl

/-- Witness for C6: a missing `next` yields 400; with `current = x` and
`next = y` against a register holding `x`, the CAS succeeds and the handler
answers 200, having called `Propose` with exactly `cas(x, y)`; against a
register holding `z` the CAS fails and the handler answers 412. -/
theorem post_cas_status_mapping_witness :
    (handlePost (gostr "k") (gostr "x") []
      (fun f => (f (some (gostr "x")), (none : Option GoStr)))).resp.status = 400 ∧
    (handlePost (gostr "k") (gostr "x") (gostr "y")
      (fun f => (f (some (gostr "x")), (none : Option GoStr)))).resp.status = 200 ∧
    (handlePost (gostr "k") (gostr "x") (gostr "y")
      (fun f => (f (some (gostr "x")), (none : Option GoStr)))).calls =
      [cas (some (gostr "x")) (some (gostr "y"))] ∧
    (handlePost (gostr "k") (gostr "x") (gostr "y")
      (fun f => (f (some (gostr "z")), (none : Option GoStr)))).resp.status = 412 := by
  have h400 := (post_cas_status_mapping (gostr "k") (gostr "x") []
    (fun f => (f (some (gostr "x")), (none : Option GoStr))) (by decide)).1 rfl
  have hmain := (post_cas_status_mapping (gostr "k") (gostr "x") (gostr "y")
    (fun f => (f (some (gostr "x")), (none : Option GoStr))) (by decide)).2 (by decide)
  have h200 := ((hmain.2.2 (cas (if (gostr "x").isEmpty then none else some (gostr "x"))
      (some (gostr "y")) (some (gostr "x"))) rfl).1 (by decide))
  have hfail := (post_cas_status_mapping (gostr "k") (gostr "x") (gostr "y")
    (fun f => (f (some (gostr "z")), (none : Option GoStr))) (by decide)).2 (by decide)
  have h412 := ((hfail.2.2 (cas (if (gostr "x").isEmpty then none else some (gostr "x"))
      (some (gostr "y")) (some (gostr "z"))) rfl).2 (by decide))
  have hcalls : (handlePost (gostr "k") (gostr "x") (gostr "y")
      (fun f => (f (some (gostr "x")), (none : Option GoStr)))).calls =
      [cas (some (gostr "x")) (some (gostr "y"))] := hmain.1
  exact ⟨h400, h200, hcalls, h412⟩

/-- Claim C7 concerns the escape round-trip of the request URLs built by
`AcceptorClient.Prepare` and `AcceptorClient.Accept`.  The claim fails on the
code: the client assigns the already path-segment-escaped key to `u.Path`,
`URL.String` escapes the path a second time (in particular `%` itself), and
the server's single decode therefore recovers `PathEscape(key)`, not `key`.
The round-trip holds only for keys the segment escaping leaves unchanged
(`abc` below); for `a/b` the server recovers `a%2Fb` and for `x%y` it
recovers `x%25y`. -/
theorem prepare_url_double_escape :
    recoveredPrepareKey (gostr "abc") = some (gostr "abc") ∧
    recoveredPrepareKey (gostr "a/b") = some (gostr "a%2Fb") ∧
    gostr "a%2Fb" ≠ gostr "a/b" ∧
    recoveredPrepareKey (gostr "x%y") = some (gostr "x%25y") ∧
    gostr "x%25y" ≠ gostr "x%y" := by
  decide

/-- Claim C8: at the accept endpoint an empty value and an absent value are
indistinguishable.  Both routes (`/accept/:key/:value` with an empty segment
after decoding, and `/accept/:key` with no segment at all, whose missing
`mux` variable reads as the empty string) invoke the handler with `value`
equal to the empty string, and the handler then passes the nil slice to
`Acceptor.Accept`. -/
theorem accept_empty_and_missing_value_nil :
    ∀ (key hdr : GoStr) (acceptor : Ballot → Bytes → Option GoStr) (b : Ballot),
      key.isEmpty = false → header2ballot hdr = .ok b →
      (handleAccept key [] hdr acceptor).2 = some (AcceptCall.mk key b none) := by
  intro key hdr acceptor b hk hb
  cases ha : acceptor b none <;>
    simp only [handleAccept, hk, Bool.false_eq_true, if_false, hb,
      List.isEmpty_nil, if_true, ha]

/-- Witness for C8: with key `k` and ballot header `1/2`, the handler called
with an empty value passes the nil slice to the acceptor. -/
theorem accept_empty_and_missing_value_nil_witness :
    (handleAccept (gostr "k") [] (gostr "1/2")
      (fun _ _ => (none : Option GoStr))).2 =
      some (AcceptCall.mk (gostr "k") (Ballot.mk 1 2) none) :=
  accept_empty_and_missing_value_nil (gostr "k") (gostr "1/2")
    (fun _ _ => (none : Option GoStr)) (Ballot.mk 1 2) (by decide) (by decide)

/-- Claim C9: the 200 body of `GET /{key}` is the value followed by exactly
one newline (not the raw value), and the 200 body of `POST /{key}` is the
descriptive CAS success message, which is never the returned value itself. -/
theorem response_bodies_not_raw_value :
    (∀ (key : GoStr) (propose : ChangeFunc → Bytes × Option GoStr) (v : GoStr),
      key.isEmpty = false → propose read = (some v, none) →
      (handleGet key propose).resp.body = v ++ [10]) ∧
    (∀ (key currentQ nextQ : GoStr) (propose : ChangeFunc → Bytes × Option GoStr)
        (v : Bytes),
      key.isEmpty = false → nextQ.isEmpty = false →
      propose (cas (if currentQ.isEmpty then none else some currentQ) (some nextQ))
          = (v, none) →
      bytesEq v (some nextQ) →
      (handlePost key currentQ nextQ propose).resp.body =
        casSuccessMsg key (if currentQ.isEmpty then none else some currentQ) nextQ v ∧
      (handlePost key currentQ nextQ propose).resp.body ≠ v.getD []) := by
  constructor
  · intro key propose v hk hp
    simp only [handleGet, hk, Bool.false_eq_true, if_false, hp]
    rfl
  · intro key currentQ nextQ propose v hk hn hp hv
    have hbody : (handlePost key currentQ nextQ propose).resp.body =
        casSuccessMsg key (if currentQ.isEmpty then none else some currentQ) nextQ v := by
      simp only [handlePost, hk, hn, Bool.false_eq_true, if_false, hp]
      rw [if_pos hv]
    refine ⟨hbody, ?_⟩
    have hv2 : v = some nextQ := by
      cases v with
      | none =>
        exfalso
        have : nextQ = [] := by simpa [bytesEq] using hv
        rw [this] at hn
        simp at hn
      | some w =>
        have : w = nextQ := by simpa [bytesEq] using hv
        rw [this]
    rw [hbody, hv2]
    intro heq
    have hlen := congrArg List.length heq
    have l1 : (gostr "CAS(").length = 4 := by decide
    have l2 : (gostr ", ").length = 2 := by decide
    have l3 : (gostr ") success: new value ").length = 21 := by decide
    simp only [casSuccessMsg, prettyPrint, List.length_append, l1, l2, l3,
      List.length_cons, List.length_nil, Option.getD_some] at hlen
    omega

/-- Witness for C9: reading key `k` holding `w` yields body `w` plus newline;
a successful `CAS(k, x, y)` yields the descriptive success message, which
differs from the stored value `y`. -/
theorem response_bodies_not_raw_value_witness :
    (handleGet (gostr "k")
      (fun f => (f (some (gostr "w")), (none : Option GoStr)))).resp.body
        = gostr "w" ++ [10] ∧
    (handlePost (gostr "k") (gostr "x") (gostr "y")
      (fun f => (f (some (gostr "x")), (none : Option GoStr)))).resp.body
        = casSuccessMsg (gostr "k") (some (gostr "x")) (gostr "y") (some (gostr "y")) ∧
    (handlePost (gostr "k") (gostr "x") (gostr "y")
      (fun f => (f (some (gostr "x")), (none : Option GoStr)))).resp.body
        ≠ gostr "y" := by
  have h1 := response_bodies_not_raw_value.1 (gostr "k")
    (fun f => (f (some (gostr "w")), (none : Option GoStr))) (gostr "w")
    (by decide) rfl
  have h2 := response_bodies_not_raw_value.2 (gostr "k") (gostr "x") (gostr "y")
    (fun f => (f (some (gostr "x")), (none : Option GoStr))) (some (gostr "y"))
    (by decide) (by decide) rfl (by decide)
  refine ⟨h1, ?_, h2.2⟩
  rw [h2.1]
  decide

/-- Claim C10: `DELETE /{key}` answers 501 Not Implemented unconditionally,
for every key and proposer, and never invokes `Propose` (its call list is
empty). -/
theorem delete_not_implemented :
    ∀ (key : GoStr) (propose : ChangeFunc → Bytes × Option GoStr),
      (handleDelete key propose).resp.status = 501 ∧
      (handleDelete key propose).resp.body = gostr "not implemented" ++ [10] ∧
      (handleDelete key propose).calls = [] :=
  fun _ _ => ⟨rfl, rfl, rfl⟩
